import Mathlib

/-!
Verification of the polium repository (offline-asset rewriting, strict
offline verification, AIS gap detection and geodesic range rings) against
its natural-language specification.

The embedding works over `List Char` for HTML text.  Regular-expression
patterns from `_CDN_PATTERNS` in `src/polium/core.py` are embedded as
backtracking matchers that return the list of possible suffixes in
priority order (greedy alternatives first), exactly the order in which a
backtracking regex engine explores them; `findIter` then reproduces
`re.finditer` (leftmost match, continue after the match end) and `patSub`
reproduces `re.sub` with a literal replacement string (the replacement
strings appearing in the source contain no template escapes).
-/

/-- Shorthand: the character list of a string literal. -/
def cl (s : String) : List Char := s.toList

/-- A matcher sends an input suffix to the list of suffixes remaining after
a match, in backtracking priority order (head = the match the regex engine
commits to). -/
abbrev Matcher := List Char → List (List Char)

/-- Match a literal character sequence at the head of the input. -/
def litMatch : List Char → List Char → Option (List Char)
  | [], s => some s
  | _ :: _, [] => none
  | c :: cs, x :: xs => if c == x then litMatch cs xs else none

/-- Literal-string matcher (a regex with every metacharacter escaped). -/
def litM (t : String) : Matcher := fun s =>
  match litMatch t.toList s with
  | some r => [r]
  | none => []

/-- Single-character class matcher; `neg = true` embeds a negated class
such as `[^/]`. -/
def clsM (neg : Bool) (cs : List Char) : Matcher := fun s =>
  match s with
  | [] => []
  | c :: r => if (if neg then !(cs.contains c) else cs.contains c) then [r] else []

/-- Sequencing of matchers (regex concatenation). -/
def seqM (a b : Matcher) : Matcher := fun s => (a s).flatMap b

/-- Alternation `a|b`: alternatives of `a` are preferred. -/
def altM (a b : Matcher) : Matcher := fun s => a s ++ b s

/-- Greedy option `a?`: taking `a` is preferred over skipping it. -/
def optM (a : Matcher) : Matcher := fun s => a s ++ [s]

/-- Suffixes after one or more greedy repetitions of `m`.  The fuel bounds
the recursion; every repetition body used below consumes at least one
character, so `length + 1` fuel is never exhausted. -/
def plusSufs (m : Matcher) : Nat → List Char → List (List Char)
  | 0, _ => []
  | fuel + 1, s =>
    (m s).flatMap (fun s2 =>
      (if s2.length < s.length then plusSufs m fuel s2 else []) ++ [s2])

/-- Greedy `a+`. -/
def plusM (a : Matcher) : Matcher := fun s => plusSufs a (s.length + 1) s

/-- Concatenation of a list of matchers. -/
def catM : List Matcher → Matcher
  | [] => fun s => [s]
  | m :: ms => seqM m (catM ms)

/-- The class `[^/]` used by the `@version` segments of the CDN patterns. -/
def nonSlashM : Matcher := clsM true (cl ("/"))

/-- The class `\d`. -/
def digitM : Matcher := clsM false (cl ("0123456789"))

/-- `\d+\.\d+\.\d+`, the dotted version-number segment. -/
def versionM : Matcher :=
  catM [plusM digitM, litM ("."), plusM digitM, litM ("."), plusM digitM]

/-! The seventeen entries of `_CDN_PATTERNS` (src/polium/core.py lines
45-71), embedded one regex at a time. -/

/-- `https://cdn\.jsdelivr\.net/npm/leaflet@[^/]+/dist/leaflet(?:\.min)?\.js` -/
def leafletJsM : Matcher :=
  catM [litM ("https://cdn.jsdelivr.net/npm/leaflet@"), plusM nonSlashM,
        litM ("/dist/leaflet"), optM (litM (".min")), litM (".js")]

/-- `https://cdn\.jsdelivr\.net/npm/leaflet@[^/]+/dist/leaflet(?:\.min)?\.css` -/
def leafletCssM : Matcher :=
  catM [litM ("https://cdn.jsdelivr.net/npm/leaflet@"), plusM nonSlashM,
        litM ("/dist/leaflet"), optM (litM (".min")), litM (".css")]

/-- `https://code\.jquery\.com/jquery-\d+\.\d+\.\d+\.min\.js` -/
def jqueryJsM : Matcher :=
  catM [litM ("https://code.jquery.com/jquery-"), versionM, litM (".min.js")]

/-- `https://cdn\.jsdelivr\.net/npm/bootstrap@[^/]+/dist/js/bootstrap\.bundle\.min\.js` -/
def bootstrapJsM : Matcher :=
  catM [litM ("https://cdn.jsdelivr.net/npm/bootstrap@"), plusM nonSlashM,
        litM ("/dist/js/bootstrap.bundle.min.js")]

/-- `https://cdn\.jsdelivr\.net/npm/bootstrap@[^/]+/dist/css/bootstrap\.min\.css` -/
def bootstrapCssM : Matcher :=
  catM [litM ("https://cdn.jsdelivr.net/npm/bootstrap@"), plusM nonSlashM,
        litM ("/dist/css/bootstrap.min.css")]

/-- `https?://netdna\.bootstrapcdn\.com/bootstrap/\d+\.\d+\.\d+/css/bootstrap-glyphicons\.css` -/
def bootstrapGlyphiconsCssM : Matcher :=
  catM [litM ("http"), optM (litM ("s")), litM ("://netdna.bootstrapcdn.com/bootstrap/"),
        versionM, litM ("/css/bootstrap-glyphicons.css")]

/-- `https://cdn\.jsdelivr\.net/npm/@fortawesome/fontawesome-free@[^/]+/css/all\.min\.css` -/
def faCssM : Matcher :=
  catM [litM ("https://cdn.jsdelivr.net/npm/@fortawesome/fontawesome-free@"),
        plusM nonSlashM, litM ("/css/all.min.css")]

/-- `https://cdnjs\.cloudflare\.com/ajax/libs/Leaflet\.awesome-markers/\d+\.\d+\.\d+/leaflet\.awesome-markers\.js` -/
def awesomemarkersJsM : Matcher :=
  catM [litM ("https://cdnjs.cloudflare.com/ajax/libs/Leaflet.awesome-markers/"),
        versionM, litM ("/leaflet.awesome-markers.js")]

/-- Same as `awesomemarkersJsM` with the `.css` suffix. -/
def awesomemarkersCssM : Matcher :=
  catM [litM ("https://cdnjs.cloudflare.com/ajax/libs/Leaflet.awesome-markers/"),
        versionM, litM ("/leaflet.awesome-markers.css")]

/-- `https://cdn\.jsdelivr\.net/gh/python-visualization/folium/folium/templates/leaflet\.awesome\.rotate\.min\.css` -/
def awesomemarkersRotateCssM : Matcher :=
  litM ("https://cdn.jsdelivr.net/gh/python-visualization/folium/folium/templates/leaflet.awesome.rotate.min.css")

/-- `https://cdn\.jsdelivr\.net/npm/leaflet-timedimension@[^/]+/dist/leaflet\.timedimension(?:\.min)?\.js` -/
def timedimensionJsM : Matcher :=
  catM [litM ("https://cdn.jsdelivr.net/npm/leaflet-timedimension@"), plusM nonSlashM,
        litM ("/dist/leaflet.timedimension"), optM (litM (".min")), litM (".js")]

/-- `https://cdn\.jsdelivr\.net/npm/leaflet-timedimension@[^/]+/dist/leaflet\.timedimension\.control(?:\.min)?\.css` -/
def timedimensionCssM : Matcher :=
  catM [litM ("https://cdn.jsdelivr.net/npm/leaflet-timedimension@"), plusM nonSlashM,
        litM ("/dist/leaflet.timedimension.control"), optM (litM (".min")), litM (".css")]

/-- `https://(?:cdnjs\.cloudflare\.com/ajax/libs/moment\.js/\d+\.\d+\.\d+/moment\.min\.js|cdn\.jsdelivr\.net/npm/moment@[^/]+/min/moment\.min\.js)` -/
def momentJsM : Matcher :=
  seqM (litM ("https://"))
    (altM
      (catM [litM ("cdnjs.cloudflare.com/ajax/libs/moment.js/"), versionM,
             litM ("/moment.min.js")])
      (catM [litM ("cdn.jsdelivr.net/npm/moment@"), plusM nonSlashM,
             litM ("/min/moment.min.js")]))

/-- `https://cdn\.jsdelivr\.net/npm/iso8601-js-period@[^/]+/iso8601(?:\.min)?\.js` -/
def iso8601JsM : Matcher :=
  catM [litM ("https://cdn.jsdelivr.net/npm/iso8601-js-period@"), plusM nonSlashM,
        litM ("/iso8601"), optM (litM (".min")), litM (".js")]

/-- `https://cdn\.jsdelivr\.net/npm/leaflet-ant-path@[^/]+/dist/leaflet-ant-path(?:\.min)?\.js` -/
def antpathJsM : Matcher :=
  catM [litM ("https://cdn.jsdelivr.net/npm/leaflet-ant-path@"), plusM nonSlashM,
        litM ("/dist/leaflet-ant-path"), optM (litM (".min")), litM (".js")]

/-- `https://tile\.openstreetmap\.org/\{z\}/\{x\}/\{y\}\.png` (all braces literal). -/
def osmTilesM : Matcher :=
  litM ("https://tile.openstreetmap.org/\x7bz\x7d/\x7bx\x7d/\x7by\x7d.png")

/-- `_CDN_PATTERNS`: the insertion-ordered pattern table of the source. -/
def cdnPatterns : List (List Char × Matcher) :=
  [(cl ("leaflet_js"), leafletJsM),
   (cl ("leaflet_css"), leafletCssM),
   (cl ("jquery_js"), jqueryJsM),
   (cl ("bootstrap_js"), bootstrapJsM),
   (cl ("bootstrap_css"), bootstrapCssM),
   (cl ("bootstrap_glyphicons_css"), bootstrapGlyphiconsCssM),
   (cl ("fa_css"), faCssM),
   (cl ("awesomemarkers_js"), awesomemarkersJsM),
   (cl ("awesomemarkers_css"), awesomemarkersCssM),
   (cl ("awesomemarkers_rotate_css"), awesomemarkersRotateCssM),
   (cl ("timedimension_js"), timedimensionJsM),
   (cl ("timedimension_css"), timedimensionCssM),
   (cl ("moment_js"), momentJsM),
   (cl ("iso8601_js"), iso8601JsM),
   (cl ("antpath_js"), antpathJsM),
   (cl ("osm_tiles"), osmTilesM)]

/-- `re.finditer`: scan left to right; at each position commit to the
matcher's first (priority) alternative; record the span and continue at
its end.  The fuel is `length + 1`, enough because every step either
advances one character or consumes a non-empty match. -/
def findIterAux (m : Matcher) : Nat → List Char → Nat → List (Nat × Nat)
  | 0, _, _ => []
  | fuel + 1, s, pos =>
    match s with
    | [] => []
    | _ :: rest =>
      match (m s).head? with
      | none => findIterAux m fuel rest (pos + 1)
      | some s2 =>
        let k := s.length - s2.length
        if k = 0 then findIterAux m fuel rest (pos + 1)
        else (pos, pos + k) :: findIterAux m fuel (s.drop k) (pos + k)

/-- The spans (start, end) of all non-overlapping matches of `m` in `s`,
in document order. -/
def findIter (m : Matcher) (s : List Char) : List (Nat × Nat) :=
  findIterAux m (s.length + 1) s 0

/-- Splice `repl` over each span (the spans are absolute positions in the
original text, sorted and non-overlapping as produced by `findIter`);
`cur` is the absolute position of the head of `s`. -/
def applySpansFrom (repl : List Char) : List (Nat × Nat) → Nat → List Char → List Char
  | [], _, s => s
  | (a, b) :: rest, cur, s =>
    s.take (a - cur) ++ repl ++ applySpansFrom repl rest b (s.drop (b - cur))

/-- `pat.sub(repl, s)` with a literal replacement string. -/
def patSub (m : Matcher) (repl : List Char) (s : List Char) : List Char :=
  applySpansFrom repl (findIter m s) 0 s

/-! String search helpers mirroring `str.find` / `str.rfind`. -/

/-- First position `i ≥ start` at which `tok` occurs in the scanned list;
`i` counts from the accumulator.  Mirrors `html.find(tok, start)` (the
needles used are non-empty). -/
def findOccAux (tok : List Char) (start : Nat) : List Char → Nat → Option Nat
  | [], _ => none
  | c :: r, i =>
    if start ≤ i ∧ tok.isPrefixOf (c :: r) = true then some i
    else findOccAux tok start r (i + 1)

/-- `html.find(tok, start)` returning `none` for `-1`. -/
def strFindFrom (tok h : List Char) (start : Nat) : Option Nat :=
  findOccAux tok start h 0

/-- Last position `i` with `i + tok.length ≤ endPos` at which `tok`
occurs.  Mirrors `html.rfind(tok, 0, endPos)`. -/
def rfindOccAux (tok : List Char) (endPos : Nat) : List Char → Nat → Option Nat
  | [], _ => none
  | c :: r, i =>
    match rfindOccAux tok endPos r (i + 1) with
    | some j => some j
    | none =>
      if i + tok.length ≤ endPos ∧ tok.isPrefixOf (c :: r) = true then some i
      else none

/-- `html.rfind(tok, 0, endPos)` returning `none` for `-1`. -/
def strRfindBefore (tok h : List Char) (endPos : Nat) : Option Nat :=
  rfindOccAux tok endPos h 0

/-! The inline-embedding strategy of `_embed_inline_assets`
(src/polium/core.py lines 129-245). -/

def scriptOpenTok : List Char := cl ("<script")
def scriptCloseTok : List Char := cl ("</script>")
def linkOpenTok : List Char := cl ("<link")
def gtTok : List Char := cl (">")

/-- `"<script>\n" + content + "\n</script>"`. -/
def mkInlineScript (content : List Char) : List Char :=
  cl ("<script>\n") ++ content ++ cl ("\n</script>")

/-- `"<style>\n" + content + "\n</style>"`. -/
def mkInlineStyle (content : List Char) : List Char :=
  cl ("<style>\n") ++ content ++ cl ("\n</style>")

/-- One iteration over a script-class match (source lines 196-215): scan
backward from the match start for `<script`, forward from the match end
for `</script>`; on failure of either scan leave the text unchanged
(`continue`), otherwise replace the whole tag span with the inline
block.  The span positions come from `finditer` on the text as it was
when the key's processing started; the tag scans run on the current
text. -/
def embedScriptStep (inl : List Char) (html : List Char) (sp : Nat × Nat) : List Char :=
  match strRfindBefore scriptOpenTok html sp.1 with
  | none => html
  | some ss =>
    match strFindFrom scriptCloseTok html sp.2 with
    | none => html
    | some b => html.take ss ++ inl ++ html.drop (b + scriptCloseTok.length)

/-- `for match in reversed(matches): ...` for a script-class key. -/
def embedScriptMatches (inl : List Char) (spans : List (Nat × Nat)) (html : List Char) : List Char :=
  spans.reverse.foldl (embedScriptStep inl) html

/-- Full processing of one script-class key: compute the matches once,
then splice in reverse document order. -/
def embedJsForPattern (m : Matcher) (inl html : List Char) : List Char :=
  embedScriptMatches inl (findIter m html) html

/-- One iteration over a style-class match (source lines 221-239): scan
backward for `<link`, forward for the first `>` after the match, replace
the link tag with the inline style block; on failure of either scan leave
the text unchanged. -/
def embedLinkStep (inl : List Char) (html : List Char) (sp : Nat × Nat) : List Char :=
  match strRfindBefore linkOpenTok html sp.1 with
  | none => html
  | some ls =>
    match strFindFrom gtTok html sp.2 with
    | none => html
    | some e => html.take ls ++ inl ++ html.drop (e + 1)

/-- `for match in reversed(matches): ...` for a style-class key. -/
def embedLinkMatches (inl : List Char) (spans : List (Nat × Nat)) (html : List Char) : List Char :=
  spans.reverse.foldl (embedLinkStep inl) html

/-- Full processing of one style-class key. -/
def embedCssForPattern (m : Matcher) (inl html : List Char) : List Char :=
  embedLinkMatches inl (findIter m html) html

/-- `key.endswith(suffix)`. -/
def endsWithL (suf s : List Char) : Bool := suf.reverse.isPrefixOf s.reverse

/-- The default local file name for each key, relative to `assets_dir`
(identical tables at source lines 92-110 and 151-169). -/
def defaultAssetFiles : List (List Char × List Char) :=
  [(cl ("leaflet_js"), cl ("/leaflet.js")),
   (cl ("leaflet_css"), cl ("/leaflet.css")),
   (cl ("jquery_js"), cl ("/jquery-3.7.1.min.js")),
   (cl ("bootstrap_js"), cl ("/bootstrap.bundle.min.js")),
   (cl ("bootstrap_css"), cl ("/bootstrap.min.css")),
   (cl ("bootstrap_glyphicons_css"), cl ("/bootstrap-glyphicons.css")),
   (cl ("fa_css"), cl ("/all.min.css")),
   (cl ("awesomemarkers_js"), cl ("/leaflet.awesome-markers.js")),
   (cl ("awesomemarkers_css"), cl ("/leaflet.awesome-markers.css")),
   (cl ("awesomemarkers_rotate_css"), cl ("/leaflet.awesome.rotate.min.css")),
   (cl ("timedimension_js"), cl ("/leaflet.timedimension.min.js")),
   (cl ("timedimension_css"), cl ("/leaflet.timedimension.control.css")),
   (cl ("moment_js"), cl ("/moment.min.js")),
   (cl ("iso8601_js"), cl ("/iso8601.min.js")),
   (cl ("antpath_js"), cl ("/leaflet-ant-path.min.js"))]

/-- `base / filename` for every default entry. -/
def buildDefaults (base : List Char) : List (List Char × List Char) :=
  defaultAssetFiles.map (fun kv => (kv.1, base ++ kv.2))

/-- Dictionary lookup where later bindings override earlier ones
(`dict.update` semantics). -/
def lookupLast (reps : List (List Char × List Char)) (k : List Char) : Option (List Char) :=
  (reps.reverse.find? (fun kv => kv.1 == k)).map (fun kv => kv.2)

/-- The `replacements` dict of `_rewrite_external_assets`: defaults from
`assets_dir`, overridden by `extra_map`, plus the `osm_tiles` fallback. -/
def buildRepsRef (dir : Option (List Char)) (extra : List (List Char × List Char))
    (tiles : Option (List Char)) : List (List Char × List Char) :=
  (match dir with | none => [] | some base => buildDefaults base) ++ extra ++
  (match tiles with | none => [] | some t => [(cl ("osm_tiles"), t)])

/-- One iteration of the substitution loop (source lines 121-124):
`local = replacements.get(key); if local: html = pat.sub(local, html)`.
Python string truthiness skips an empty replacement. -/
def refStep (reps : List (List Char × List Char)) (h : List Char)
    (kp : List Char × Matcher) : List Char :=
  match lookupLast reps kp.1 with
  | none => h
  | some l => if l = [] then h else patSub kp.2 l h

/-- `_rewrite_external_assets` (reference mode).  The source performs no
file-system access in this mode, so no file-system parameter appears. -/
def rewrite_external_assets (dir : Option (List Char))
    (extra : List (List Char × List Char)) (tiles : Option (List Char))
    (html : List Char) : List Char :=
  cdnPatterns.foldl (refStep (buildRepsRef dir extra tiles)) html

/-- The `replacements` dict of `_embed_inline_assets` (no tiles entry;
tiles are substituted separately before the loop). -/
def buildRepsInline (dir : Option (List Char))
    (extra : List (List Char × List Char)) : List (List Char × List Char) :=
  (match dir with | none => [] | some base => buildDefaults base) ++ extra

/-- One iteration of the embedding loop (source lines 180-243).  The
file system is modeled as `fs : path → Option content`; `none` covers
both a missing file (`exists()` false) and an unreadable one (the
`except` clause), each of which silently skips the key. -/
def inlineStep (fs : List Char → Option (List Char))
    (reps : List (List Char × List Char)) (h : List Char)
    (kp : List Char × Matcher) : List Char :=
  if kp.1 = cl ("osm_tiles") then h
  else
    match lookupLast reps kp.1 with
    | none => h
    | some p =>
      match fs p with
      | none => h
      | some content =>
        if endsWithL (cl ("_js")) kp.1 then
          embedJsForPattern kp.2 (mkInlineScript content) h
        else if endsWithL (cl ("_css")) kp.1 then
          embedCssForPattern kp.2 (mkInlineStyle content) h
        else h

/-- `_embed_inline_assets` (inline mode). -/
def embed_inline_assets (fs : List Char → Option (List Char))
    (dir : Option (List Char)) (extra : List (List Char × List Char))
    (tiles : Option (List Char)) (html : List Char) : List Char :=
  let h1 := match tiles with | none => html | some t => patSub osmTilesM t html
  cdnPatterns.foldl (inlineStep fs (buildRepsInline dir extra)) h1

/-! The strict-offline verification pass of `PoliumMap.save`
(src/polium/core.py lines 705-714). -/

/-- Double or single quote, the class `["']`. -/
def isQuoteChar (c : Char) : Bool := c == Char.ofNat 34 || c == Char.ofNat 39

/-- After an opening quote, try to parse `(https?://[^"']+)` followed by a
closing quote; returns the captured group and the text after the closing
quote.  Greedily taking the maximal run of non-quote characters is
equivalent to the regex: any shorter run would put a non-quote character
where the closing `["']` is required. -/
def parseQuotedUrl (rest : List Char) : Option (List Char × List Char) :=
  let scheme? : Option (List Char × List Char) :=
    if (cl ("https://")).isPrefixOf rest then some (cl ("https://"), rest.drop 8)
    else if (cl ("http://")).isPrefixOf rest then some (cl ("http://"), rest.drop 7)
    else none
  match scheme? with
  | none => none
  | some (scheme, r2) =>
    let body := r2.takeWhile (fun c => !(isQuoteChar c))
    let rem := r2.dropWhile (fun c => !(isQuoteChar c))
    match rem with
    | [] => none
    | _ :: tail => if body = [] then none else some (scheme ++ body, tail)

/-- `re.findall(r"[\"'](https?://[^\"']+)[\"']", html)`: scan left to
right; a match can only start at a quote character; after a match resume
after its closing quote, otherwise advance one character. -/
def scanQuotedUrls : Nat → List Char → List (List Char)
  | 0, _ => []
  | _ + 1, [] => []
  | fuel + 1, c :: rest =>
    if isQuoteChar c then
      match parseQuotedUrl rest with
      | some (url, tail) => url :: scanQuotedUrls fuel tail
      | none => scanQuotedUrls fuel rest
    else scanQuotedUrls fuel rest

/-- All quoted absolute-URL literals of the document. -/
def findallExternalUrls (h : List Char) : List (List Char) :=
  scanQuotedUrls h.length h

/-- The `external_calls` list: quoted URLs that are neither
`http://127.0.0.1`- nor `http://localhost`-prefixed. -/
def externalCalls (h : List Char) : List (List Char) :=
  (findallExternalUrls h).filter
    (fun u => !((cl ("http://127.0.0.1")).isPrefixOf u) &&
              !((cl ("http://localhost")).isPrefixOf u))

/-- The `strict_offline` block of `save`: raise iff `external_calls` is
non-empty, carrying the offending URLs. -/
def strict_offline_check (h : List Char) : Except (List (List Char)) Unit :=
  if externalCalls h = [] then Except.ok () else Except.error (externalCalls h)

/-! The gap-detector scan loop of `src/demo_ais_dark_zone.py` lines 47-51:
`for i in range(len(times) - 1): if times[i+1] - times[i] > gap_threshold:
gap_idx = i; break` (else `gap_idx` stays `None`).  Timestamps are modeled
as integers (e.g. seconds). -/
def gapScan (threshold : Int) : List Int → Option Nat
  | t1 :: t2 :: rest =>
    if t2 - t1 > threshold then some 0
    else (gapScan threshold (t2 :: rest)).map (fun i => i + 1)
  | _ => none

/-! The geodesic ring (`_geodesic_circle`, src/polium/core.py lines
313-325, and the identical `geodesic_circle` of the demo).  The forward
geodesic projection `geod.fwd` is an external pyproj capability and is a
parameter `fwd lon lat azimuth dist = (lon2, lat2)`; bearings and
distances are exact rationals (the source works in double precision). -/

/-- The accumulation loop: `a = 0.0; for _ in range(n): coords.append(
fwd(lon, lat, a, radius)); a += step`. -/
def geodCircleCoords (fwd : ℚ → ℚ → ℚ → ℚ → ℚ × ℚ) (lon lat radius step : ℚ) :
    Nat → ℚ → List (ℚ × ℚ)
  | 0, _ => []
  | k + 1, a => fwd lon lat a radius :: geodCircleCoords fwd lon lat radius step k (a + step)

/-- `geodesic_circle(lon, lat, radius_m, n)`: `n` vertices at bearing
steps of `360/n` starting from bearing `0`, closed by repeating the first
vertex.  `n = 0` is `none`: the source raises `ZeroDivisionError` at
`360.0 / n`. -/
def geodesic_circle (fwd : ℚ → ℚ → ℚ → ℚ → ℚ × ℚ) (lon lat radius : ℚ) (n : Nat) :
    Option (List (ℚ × ℚ)) :=
  if n = 0 then none
  else
    match geodCircleCoords fwd lon lat radius (360 / (n : ℚ)) n 0 with
    | [] => none
    | c :: rest => some ((c :: rest) ++ [c])

/-! Radius policy of the demo (src/demo_ais_dark_zone.py lines 63-68). -/

/-- `NM = 1852.0`, meters per nautical mile. -/
def NM : ℚ := 1852

/-- `radius_conservative_m = sog_before * gap_hours * NM`. -/
def radius_conservative_m (sog_before gap_hours : ℚ) : ℚ :=
  sog_before * gap_hours * NM

/-- `max_speed_kn = 22.0`. -/
def max_speed_kn : ℚ := 22

/-- `radius_max_m = max_speed_kn * gap_hours * NM`. -/
def radius_max_m (gap_hours : ℚ) : ℚ := max_speed_kn * gap_hours * NM

/-! Concrete instances used by the claim witnesses and counterexamples. -/

/-- Stand-in forward projection used to exercise the control flow of
`geodesic_circle` on concrete inputs (the real projection is pyproj's
WGS84 `fwd`, an external capability). -/
def fwdProj : ℚ → ℚ → ℚ → ℚ → ℚ × ℚ := fun _ _ az dist => (az, dist)

set_option maxRecDepth 100000

/-! ### Auxiliary lemmas about the geodesic ring loop -/

theorem geodCircleCoords_length (fwd : ℚ → ℚ → ℚ → ℚ → ℚ × ℚ)
    (lon lat radius step : ℚ) :
    ∀ (k : Nat) (a : ℚ), (geodCircleCoords fwd lon lat radius step k a).length = k := by
  intro k
  induction k with
  | zero => intro a; rfl
  | succ m ih => intro a; simp [geodCircleCoords, ih]

theorem geodCircleCoords_getD (fwd : ℚ → ℚ → ℚ → ℚ → ℚ × ℚ)
    (lon lat radius step : ℚ) (d : ℚ × ℚ) :
    ∀ (k : Nat) (a : ℚ) (i : Nat), i < k →
      (geodCircleCoords fwd lon lat radius step k a).getD i d
        = fwd lon lat (a + i * step) radius := by
  intro k
  induction k with
  | zero => intro a i h; omega
  | succ m ih =>
    intro a i h
    cases i with
    | zero => simp [geodCircleCoords]
    | succ j =>
      have hj : j < m := by omega
      simp only [geodCircleCoords, List.getD_cons_succ]
      rw [ih (a + step) j hj]
      congr 1
      push_cast
      ring

/-! ### Auxiliary lemmas about the gap scan -/

theorem gapScan_some_spec (thr : Int) :
    ∀ (times : List Int) (i : Nat), gapScan thr times = some i →
      i + 1 < times.length ∧
      thr < times.getD (i + 1) 0 - times.getD i 0 ∧
      ∀ j, j < i → times.getD (j + 1) 0 - times.getD j 0 ≤ thr := by
  intro times
  induction times with
  | nil => intro i h; simp [gapScan] at h
  | cons t1 rest ih =>
    cases rest with
    | nil => intro i h; simp [gapScan] at h
    | cons t2 rest2 =>
      intro i h
      by_cases hc : t2 - t1 > thr
      · rw [gapScan, if_pos hc] at h
        injection h with h
        subst h
        refine ⟨by simp only [List.length_cons]; omega, by simpa using hc, fun j hj => by omega⟩
      · rw [gapScan, if_neg hc] at h
        rcases Option.map_eq_some'.mp h with ⟨i0, hi0, rfl⟩
        obtain ⟨hlen, hgap, hfirst⟩ := ih i0 hi0
        refine ⟨by simpa using hlen, by simpa using hgap, ?_⟩
        intro j hj
        cases j with
        | zero => simpa using not_lt.mp hc
        | succ j0 =>
          have := hfirst j0 (by omega)
          simpa using this

theorem gapScan_none_spec (thr : Int) :
    ∀ (times : List Int), gapScan thr times = none →
      ∀ j, j + 1 < times.length → times.getD (j + 1) 0 - times.getD j 0 ≤ thr := by
  intro times
  induction times with
  | nil => intro _ j hj; simp at hj
  | cons t1 rest ih =>
    cases rest with
    | nil => intro _ j hj; simp at hj
    | cons t2 rest2 =>
      intro h j hj
      by_cases hc : t2 - t1 > thr
      · rw [gapScan, if_pos hc] at h; cases h
      · rw [gapScan, if_neg hc] at h
        have hrest : gapScan thr (t2 :: rest2) = none := by
          cases hg : gapScan thr (t2 :: rest2) with
          | none => rfl
          | some i0 => rw [hg] at h; simp at h
        cases j with
        | zero => simpa using not_lt.mp hc
        | succ j0 =>
          have := ih hrest j0 (by simpa using hj)
          simpa using this

/-- C3: for every track with non-decreasing timestamps and every positive
threshold, the gap scan returns the first adjacent pair whose elapsed time
strictly exceeds the threshold (so a pair with elapsed time exactly equal
to the threshold never qualifies and is skipped), and when no adjacent
pair strictly exceeds the threshold the scan yields `none` rather than
failing. -/
theorem c3_gap_detector_first_strict (times : List Int) (thr : Int)
    (_hsorted : List.Sorted (fun a b => a ≤ b) times) (_hpos : 0 < thr) :
    (∀ i, gapScan thr times = some i →
        i + 1 < times.length ∧
        thr < times.getD (i + 1) 0 - times.getD i 0 ∧
        ∀ j, j < i → times.getD (j + 1) 0 - times.getD j 0 ≤ thr)
    ∧ (gapScan thr times = none →
        ∀ j, j + 1 < times.length → times.getD (j + 1) 0 - times.getD j 0 ≤ thr) :=
  ⟨fun i h => gapScan_some_spec thr times i h, gapScan_none_spec thr times⟩

/-- Witness for C3 on the demo track (minutes since 12:00, threshold 30
minutes): the scan reports the gap between indices 2 and 3 and that gap
strictly exceeds the threshold. -/
theorem c3_witness :
    gapScan 30 [(0 : Int), 10, 20, 140, 150] = some 2 ∧
    (30 : Int) < [(0 : Int), 10, 20, 140, 150].getD 3 0 - [(0 : Int), 10, 20, 140, 150].getD 2 0 :=
  ⟨by decide,
   ((c3_gap_detector_first_strict [(0 : Int), 10, 20, 140, 150] 30
      (by decide) (by decide)).1 2 (by decide)).2.1⟩

/-- C4: for every center, radius `r ≥ 0` and segment count `n ≥ 3`,
`geodesic_circle` returns exactly `n + 1` vertices, the first equal to the
last, where vertex `i` (for `i < n`) is the forward geodesic projection
from the center at bearing `i * (360 / n)` — bearings starting at 0
(north) and increasing in equal steps of `360 / n` — at distance `r`. -/
theorem c4_geodesic_ring_closed (fwd : ℚ → ℚ → ℚ → ℚ → ℚ × ℚ)
    (lon lat r : ℚ) (n : Nat) (_hr : 0 ≤ r) (hn : 3 ≤ n) :
    ∃ l, geodesic_circle fwd lon lat r n = some l ∧
      l.length = n + 1 ∧
      l.head? = some (fwd lon lat 0 r) ∧
      l.getLast? = some (fwd lon lat 0 r) ∧
      (∀ i, i < n → l.getD i (fwd lon lat 0 r)
          = fwd lon lat ((i : ℚ) * (360 / (n : ℚ))) r) ∧
      (0 : ℚ) < 360 / (n : ℚ) := by
  obtain ⟨m, rfl⟩ : ∃ m, n = m + 1 := ⟨n - 1, by omega⟩
  have hunfold : geodesic_circle fwd lon lat r (m + 1)
      = some ((fwd lon lat 0 r ::
          geodCircleCoords fwd lon lat r (360 / ((m + 1 : Nat) : ℚ)) m (0 + 360 / ((m + 1 : Nat) : ℚ)))
          ++ [fwd lon lat 0 r]) := rfl
  refine ⟨_, hunfold, ?_, ?_, ?_, ?_, ?_⟩
  · simp [geodCircleCoords_length]
  · simp
  · exact List.getLast?_concat _
  · intro i hi
    have hfull : (fwd lon lat 0 r ::
        geodCircleCoords fwd lon lat r (360 / ((m + 1 : Nat) : ℚ)) m (0 + 360 / ((m + 1 : Nat) : ℚ)))
        = geodCircleCoords fwd lon lat r (360 / ((m + 1 : Nat) : ℚ)) (m + 1) 0 := rfl
    rw [List.getD_append _ _ _ i (by
      rw [hfull, geodCircleCoords_length]; omega)]
    rw [hfull, geodCircleCoords_getD fwd lon lat r _ _ (m + 1) 0 i hi]
    congr 1
    ring
  · have hden : (0 : ℚ) < ((m + 1 : Nat) : ℚ) := by positivity
    positivity

/-- Witness for C4 at a concrete center, radius and segment count. -/
theorem c4_witness :
    ∃ l, geodesic_circle fwdProj (-1) 51 500 4 = some l ∧
      l.length = 4 + 1 ∧
      l.head? = some (fwdProj (-1) 51 0 500) ∧
      l.getLast? = some (fwdProj (-1) 51 0 500) ∧
      (∀ i, i < 4 → l.getD i (fwdProj (-1) 51 0 500)
          = fwdProj (-1) 51 ((i : ℚ) * (360 / (4 : ℚ))) 500) ∧
      (0 : ℚ) < 360 / (4 : ℚ) :=
  c4_geodesic_ring_closed fwdProj (-1) 51 500 4 (by norm_num) (by norm_num)

/-- C8: the ring radius is speed (knots) times elapsed hours times exactly
1852 meters per nautical mile, with no further coercion, so at 22 knots
for 2 hours the maximum-reach radius is exactly 81488 meters. -/
theorem c8_radius_units :
    (∀ s h : ℚ, radius_conservative_m s h = s * h * 1852) ∧
    (∀ h : ℚ, radius_max_m h = 22 * h * 1852) ∧
    radius_max_m 2 = 81488 ∧
    radius_conservative_m 22 2 = 81488 ∧
    max_speed_kn = 22 ∧ NM = 1852 := by
  refine ⟨fun s h => ?_, fun h => ?_, ?_, ?_, rfl, rfl⟩ <;>
    norm_num [radius_conservative_m, radius_max_m, max_speed_kn, NM]

/-- C9 (counterexample): a call with `segment_count = 2` is neither
rejected (the result is `some`, no error) nor clamped to a minimum of 3
segments (which would produce at least 4 vertices): the source proceeds
silently and returns the 3-vertex degenerate ring. -/
theorem c9_counterexample :
    geodesic_circle fwdProj 0 51 1000 2
      = some [((0 : ℚ), (1000 : ℚ)), ((180 : ℚ), (1000 : ℚ)), ((0 : ℚ), (1000 : ℚ))] ∧
    ∀ l, geodesic_circle fwdProj 0 51 1000 2 = some l → l.length = 3 := by
  constructor
  · norm_num [geodesic_circle, geodCircleCoords, fwdProj]
  · intro l hl
    rw [show geodesic_circle fwdProj 0 51 1000 2
        = some [((0 : ℚ), (1000 : ℚ)), ((180 : ℚ), (1000 : ℚ)), ((0 : ℚ), (1000 : ℚ))]
      from by norm_num [geodesic_circle, geodCircleCoords, fwdProj]] at hl
    injection hl with hl
    subst hl
    rfl

/-- C9 (amended): `geodesic_circle` applies no policy at all to segment
counts below 3: every call with `1 ≤ n < 3` proceeds silently and returns
a (degenerate) ring of `n + 1` vertices, neither raising nor clamping;
`n = 0` is the only failing case (a `ZeroDivisionError` in the source). -/
theorem c9_no_subminimum_policy (fwd : ℚ → ℚ → ℚ → ℚ → ℚ × ℚ)
    (lon lat r : ℚ) (n : Nat) (h1 : 1 ≤ n) (h3 : n < 3) :
    ∃ l, geodesic_circle fwd lon lat r n = some l ∧ l.length = n + 1 := by
  obtain ⟨m, rfl⟩ : ∃ m, n = m + 1 := ⟨n - 1, by omega⟩
  refine ⟨_, rfl, ?_⟩
  show ((fwd lon lat 0 r ::
      geodCircleCoords fwd lon lat r (360 / ((m + 1 : Nat) : ℚ)) m (0 + 360 / ((m + 1 : Nat) : ℚ)))
      ++ [fwd lon lat 0 r]).length = m + 1 + 1
  simp [geodCircleCoords_length]

/-- Witness for C9's amended statement at `n = 1`. -/
theorem c9_witness :
    ∃ l, geodesic_circle fwdProj 3 4 10 1 = some l ∧ l.length = 1 + 1 :=
  c9_no_subminimum_policy fwdProj 3 4 10 1 (by norm_num) (by norm_num)

/-! ### Strict offline verification (C2, C10) -/

/-- The quoted-URL scan finds nothing in a text with no quote characters:
the pattern can only start at a `["']`. -/
theorem scanQuotedUrls_no_quote :
    ∀ (fuel : Nat) (s : List Char), (∀ c ∈ s, isQuoteChar c = false) →
      scanQuotedUrls fuel s = [] := by
  intro fuel
  induction fuel with
  | zero => intro s _; rfl
  | succ f ih =>
    intro s h
    cases s with
    | nil => rfl
    | cons c r =>
      have hc : isQuoteChar c = false := h c (by simp)
      rw [scanQuotedUrls, if_neg (by simp [hc])]
      exact ih r (fun d hd => h d (by simp [hd]))

/-- C2: under strict verification, whenever the residual scan finds
non-loopback absolute-URL literals the save fails carrying exactly that
list of offending URLs; concretely, a document still holding
`https://example.com/x.js` fails listing exactly that URL, while a
document whose only absolute URL is the loopback
`http://127.0.0.1:8080/...` passes without error. -/
theorem c2_strict_verification :
    (∀ h : List Char, externalCalls h ≠ [] →
        strict_offline_check h = Except.error (externalCalls h))
    ∧ strict_offline_check
        (cl ("<script src=\"https://example.com/x.js\"></script>"))
        = Except.error [cl ("https://example.com/x.js")]
    ∧ strict_offline_check
        (cl ("<img src=\"http://127.0.0.1:8080/tiles/3/4/5.png\">"))
        = Except.ok () := by
  refine ⟨?_, by rfl, by rfl⟩
  intro h hne
  rw [strict_offline_check, if_neg hne]

/-- Witness for C2 on a document with two distinct offending URLs: the
error payload lists both, in document order, exactly. -/
theorem c2_witness :
    strict_offline_check
      (cl ("<link href=\"https://a.example/u.css\"><script src=\"https://b.example/v.js\"></script>"))
      = Except.error [cl ("https://a.example/u.css"), cl ("https://b.example/v.js")] :=
  (c2_strict_verification.1
      (cl ("<link href=\"https://a.example/u.css\"><script src=\"https://b.example/v.js\"></script>"))
      (by decide)).trans (by rfl)

/-! C10 support: every URL the strict scan reports is delimited by a
quote character on each side of it in the document. -/

/-- A successful `isPrefixOf` decomposes the list. -/
theorem isPrefixOf_decomp (tok : List Char) :
    ∀ (s : List Char), tok.isPrefixOf s = true → s = tok ++ s.drop tok.length := by
  induction tok with
  | nil => intro s _; simp
  | cons c ts ih =>
    intro s h
    cases s with
    | nil => simp [List.isPrefixOf] at h
    | cons a r =>
      simp only [List.isPrefixOf_cons₂, Bool.and_eq_true] at h
      obtain ⟨hca, hpre⟩ := h
      have hc : c = a := by simpa using hca
      subst hc
      simp only [List.length_cons, List.drop_succ_cons, List.cons_append,
        List.cons.injEq, true_and]
      exact ih r hpre

/-- The head of a non-empty `dropWhile` result fails the predicate. -/
theorem dropWhile_head_not (p : Char → Bool) :
    ∀ (l : List Char) (x : Char) (xs : List Char),
      l.dropWhile p = x :: xs → p x = false := by
  intro l
  induction l with
  | nil => intro x xs h; simp at h
  | cons a r ih =>
    intro x xs h
    rw [List.dropWhile_cons] at h
    cases hpa : p a with
    | true => rw [hpa] at h; simp at h; exact ih x xs h
    | false =>
      rw [hpa] at h
      simp at h
      obtain ⟨rfl, _⟩ := h
      exact hpa

/-- A successful quoted-URL parse decomposes its input as the captured
URL followed by the closing quote and the continuation. -/
theorem parseQuotedUrl_decomp (rest url tail : List Char)
    (h : parseQuotedUrl rest = some (url, tail)) :
    ∃ q2 : Char, isQuoteChar q2 = true ∧ rest = url ++ q2 :: tail := by
  simp only [parseQuotedUrl] at h
  split at h
  · exact absurd h (by simp)
  · rename_i scheme r2 heq
    split at h
    · exact absurd h (by simp)
    · rename_i x tail0 hrem
      split at h
      · exact absurd h (by simp)
      · rename_i hbody
        simp only [Option.some.injEq, Prod.mk.injEq] at h
        obtain ⟨hurl, htail⟩ := h
        split at heq
        · rename_i h1
          simp only [Option.some.injEq, Prod.mk.injEq] at heq
          obtain ⟨hs, hr2⟩ := heq
          subst hs
          subst hr2
          refine ⟨x, by simpa using dropWhile_head_not _ _ x tail0 hrem, ?_⟩
          calc rest = cl ("https://") ++ rest.drop 8 :=
                isPrefixOf_decomp (cl ("https://")) rest h1
            _ = cl ("https://")
                  ++ ((rest.drop 8).takeWhile (fun c => !(isQuoteChar c))
                      ++ (rest.drop 8).dropWhile (fun c => !(isQuoteChar c))) := by
                rw [List.takeWhile_append_dropWhile]
            _ = cl ("https://")
                  ++ ((rest.drop 8).takeWhile (fun c => !(isQuoteChar c))
                      ++ (x :: tail0)) := by rw [hrem]
            _ = (cl ("https://")
                  ++ (rest.drop 8).takeWhile (fun c => !(isQuoteChar c)))
                  ++ x :: tail0 := by rw [List.append_assoc]
            _ = url ++ x :: tail := by rw [hurl, htail]
        · split at heq
          · rename_i h2
            simp only [Option.some.injEq, Prod.mk.injEq] at heq
            obtain ⟨hs, hr2⟩ := heq
            subst hs
            subst hr2
            refine ⟨x, by simpa using dropWhile_head_not _ _ x tail0 hrem, ?_⟩
            calc rest = cl ("http://") ++ rest.drop 7 :=
                  isPrefixOf_decomp (cl ("http://")) rest h2
              _ = cl ("http://")
                    ++ ((rest.drop 7).takeWhile (fun c => !(isQuoteChar c))
                        ++ (rest.drop 7).dropWhile (fun c => !(isQuoteChar c))) := by
                  rw [List.takeWhile_append_dropWhile]
              _ = cl ("http://")
                    ++ ((rest.drop 7).takeWhile (fun c => !(isQuoteChar c))
                        ++ (x :: tail0)) := by rw [hrem]
              _ = (cl ("http://")
                    ++ (rest.drop 7).takeWhile (fun c => !(isQuoteChar c)))
                    ++ x :: tail0 := by rw [List.append_assoc]
              _ = url ++ x :: tail := by rw [hurl, htail]
          · exact absurd heq (by simp)

/-- Every URL the quoted-URL scan reports occurs in the text with a quote
character immediately before it and a quote character immediately after
it. -/
theorem scanQuotedUrls_mem_decomp :
    ∀ (fuel : Nat) (s u : List Char), u ∈ scanQuotedUrls fuel s →
      ∃ (pre post : List Char) (q1 q2 : Char),
        isQuoteChar q1 = true ∧ isQuoteChar q2 = true ∧
        s = pre ++ q1 :: (u ++ q2 :: post) := by
  intro fuel
  induction fuel with
  | zero => intro s u h; simp [scanQuotedUrls] at h
  | succ f ih =>
    intro s u h
    cases s with
    | nil => simp [scanQuotedUrls] at h
    | cons c rest =>
      rw [scanQuotedUrls] at h
      by_cases hq : isQuoteChar c = true
      · rw [if_pos hq] at h
        cases hp : parseQuotedUrl rest with
        | none =>
          rw [hp] at h
          obtain ⟨pre, post, q1, q2, hq1, hq2, hdec⟩ := ih rest u h
          exact ⟨c :: pre, post, q1, q2, hq1, hq2, by rw [hdec]; rfl⟩
        | some ut =>
          obtain ⟨url, tail⟩ := ut
          rw [hp] at h
          rcases List.mem_cons.mp h with huv | huv
          · subst huv
            obtain ⟨q2, hq2, hrest⟩ := parseQuotedUrl_decomp rest u tail hp
            exact ⟨[], tail, c, q2, hq, hq2, by rw [hrest]; rfl⟩
          · obtain ⟨pre, post, q1, q2, hq1, hq2, hdec⟩ := ih tail u huv
            obtain ⟨q2x, hq2x, hrest⟩ := parseQuotedUrl_decomp rest url tail hp
            refine ⟨c :: (url ++ q2x :: pre), post, q1, q2, hq1, hq2, ?_⟩
            rw [hrest, hdec]
            simp
      · rw [if_neg hq] at h
        obtain ⟨pre, post, q1, q2, hq1, hq2, hdec⟩ := ih rest u h
        exact ⟨c :: pre, post, q1, q2, hq1, hq2, by rw [hdec]; rfl⟩

/-- Lifting to `externalCalls`: every offending URL of the strict scan is
quote-delimited in the document. -/
theorem externalCalls_mem_quoted (h u : List Char) (hu : u ∈ externalCalls h) :
    ∃ (pre post : List Char) (q1 q2 : Char),
      isQuoteChar q1 = true ∧ isQuoteChar q2 = true ∧
      h = pre ++ q1 :: (u ++ q2 :: post) := by
  rw [externalCalls] at hu
  have h1 := (List.mem_filter.mp hu).1
  rw [findallExternalUrls] at h1
  exact scanQuotedUrls_mem_decomp h.length h u h1

/-- C10 (counterexample): a document containing an external non-loopback
absolute URL that is not surrounded by quote characters (here
`https://a.example/u.js`, flanked by a space and a `<`) does not always
pass strict verification: this one also holds a quoted external URL, so
the check raises — listing only the quoted URL, never the unquoted
one. -/
theorem c10_counterexample :
    ((cl ("<p class=\"x\">see https://a.example/u.js</p><script src=\"https://b.example/v.js\"></script>")).drop 16).take 24
      = cl (" https://a.example/u.js<")
    ∧ strict_offline_check
        (cl ("<p class=\"x\">see https://a.example/u.js</p><script src=\"https://b.example/v.js\"></script>"))
      = Except.error [cl ("https://b.example/v.js")] :=
  ⟨by decide, by rfl⟩

/-- C10 (amended): the strict scan detects only absolute URLs enclosed in
single or double quotes — every URL it reports is delimited by a quote on
each side, so any strict-verification failure is attributable to a
quote-delimited URL and an unquoted external URL never by itself causes a
failure; a document with no quote character at all always passes, a
document whose quoted spans hold no URL passes even when it contains an
unquoted external URL amid quoted markup, and `http://localhost`-prefixed
URLs are treated as loopback exactly like `http://127.0.0.1`. -/
theorem c10_scan_detects_only_quoted :
    (∀ (h u : List Char), u ∈ externalCalls h →
        ∃ (pre post : List Char) (q1 q2 : Char),
          isQuoteChar q1 = true ∧ isQuoteChar q2 = true ∧
          h = pre ++ q1 :: (u ++ q2 :: post))
    ∧ (∀ h : List Char, strict_offline_check h ≠ Except.ok () →
        ∃ (u pre post : List Char) (q1 q2 : Char),
          isQuoteChar q1 = true ∧ isQuoteChar q2 = true ∧
          h = pre ++ q1 :: (u ++ q2 :: post))
    ∧ (∀ h : List Char, (∀ c ∈ h, isQuoteChar c = false) →
        strict_offline_check h = Except.ok ())
    ∧ strict_offline_check
        (cl ("<p class=\"x\">see https://a.example/u.js</p>")) = Except.ok ()
    ∧ strict_offline_check
        (cl ("<img src=\"http://localhost:9999/tile.png\">")) = Except.ok () := by
  refine ⟨externalCalls_mem_quoted, ?_, ?_, by rfl, by rfl⟩
  · intro h hne
    by_cases hext : externalCalls h = []
    · exact absurd (by rw [strict_offline_check, if_pos hext]) hne
    · obtain ⟨u, hu⟩ := List.exists_mem_of_ne_nil _ hext
      obtain ⟨pre, post, q1, q2, hq1, hq2, hdec⟩ := externalCalls_mem_quoted h u hu
      exact ⟨u, pre, post, q1, q2, hq1, hq2, hdec⟩
  · intro h hq
    have hscan : findallExternalUrls h = [] :=
      scanQuotedUrls_no_quote h.length h hq
    have hext : externalCalls h = [] := by
      rw [externalCalls, hscan]; rfl
    rw [strict_offline_check, if_pos hext]

/-- Witness for C10: the quoted-delimitation conjunct applied to a
concrete document and reported URL, and the no-quote conjunct applied to
a concrete quote-free document. -/
theorem c10_witness :
    (∃ (pre post : List Char) (q1 q2 : Char),
        isQuoteChar q1 = true ∧ isQuoteChar q2 = true ∧
        cl ("<a href=\"https://w.example/z.js\">x</a>")
          = pre ++ q1 :: (cl ("https://w.example/z.js") ++ q2 :: post))
    ∧ strict_offline_check
        (cl ("<p>see https://example.com/x.js and http://cdn.example/y.css</p>"))
        = Except.ok () :=
  ⟨c10_scan_detects_only_quoted.1
      (cl ("<a href=\"https://w.example/z.js\">x</a>"))
      (cl ("https://w.example/z.js")) (by decide),
   c10_scan_detects_only_quoted.2.2.1
      (cl ("<p>see https://example.com/x.js and http://cdn.example/y.css</p>"))
      (by decide)⟩

/-! ### Reference and inline rewriting (C5, C7) -/

/-- A substitution over a text with no pattern match leaves the text
unchanged. -/
theorem patSub_of_no_match (m : Matcher) (r s : List Char)
    (h : findIter m s = []) : patSub m r s = s := by
  rw [patSub, h]
  rfl

/-- With a file system on which every path is missing (or unreadable),
every iteration of the inline-embedding loop is the identity: the key is
silently skipped before any replacement happens. -/
theorem inlineStep_fs_none (reps : List (List Char × List Char))
    (h : List Char) (kp : List Char × Matcher) :
    inlineStep (fun _ => none) reps h kp = h := by
  rw [inlineStep]
  split
  · rfl
  · cases lookupLast reps kp.1 <;> rfl

/-- Folding a pointwise-identity step leaves the accumulator unchanged. -/
theorem foldl_fixed {α β : Type} (f : β → α → β)
    (hf : ∀ b a, f b a = b) : ∀ (l : List α) (b : β), l.foldl f b = b := by
  intro l
  induction l with
  | nil => intro b; rfl
  | cons x xs ih => intro b; rw [List.foldl_cons, hf b x, ih b]

/-- C5 (counterexample): in reference mode the configured local path is
substituted for the matched URL without any file-system consultation
(`_rewrite_external_assets` performs no I/O), so when the configured file
`assets/leaflet.js` does not exist the original external URL is still
replaced — not left unchanged as the claim states for both modes. -/
theorem c5_counterexample :
    rewrite_external_assets none
        [(cl ("leaflet_js"), cl ("assets/leaflet.js"))] none
        (cl ("<script src=\"https://cdn.jsdelivr.net/npm/leaflet@1.9.3/dist/leaflet.js\"></script>"))
      = cl ("<script src=\"assets/leaflet.js\"></script>")
    ∧ rewrite_external_assets none
        [(cl ("leaflet_js"), cl ("assets/leaflet.js"))] none
        (cl ("<script src=\"https://cdn.jsdelivr.net/npm/leaflet@1.9.3/dist/leaflet.js\"></script>"))
      ≠ cl ("<script src=\"https://cdn.jsdelivr.net/npm/leaflet@1.9.3/dist/leaflet.js\"></script>") := by
  constructor
  · rfl
  · decide

/-- C5 (amended): in inline mode a configured resource whose local file
is missing or unreadable is silently skipped, leaving the whole text (in
particular the original URL) unchanged, for every assets directory,
override map and input document; in reference mode the textual
substitution is applied regardless of file existence (the mode performs
no file access at all); in neither mode does a missing file make the
rewrite fail. -/
theorem c5_missing_file_skips_inline_only :
    (∀ (dir : Option (List Char)) (extra : List (List Char × List Char))
        (html : List Char),
        embed_inline_assets (fun _ => none) dir extra none html = html)
    ∧ rewrite_external_assets none
        [(cl ("leaflet_js"), cl ("assets/leaflet.js"))] none
        (cl ("<script src=\"https://cdn.jsdelivr.net/npm/leaflet@1.9.3/dist/leaflet.js\"></script>"))
      = cl ("<script src=\"assets/leaflet.js\"></script>") := by
  constructor
  · intro dir extra html
    rw [embed_inline_assets]
    exact foldl_fixed _ (inlineStep_fs_none (buildRepsInline dir extra)) cdnPatterns html
  · rfl

/-- C7 (counterexample): reference-mode rewriting is not idempotent for
every resolution table: with the table sending `leaflet_js` to a string
that itself contains a fresh match of the same pattern, a second pass
substitutes again and the output changes. -/
theorem c7_counterexample :
    rewrite_external_assets none
        [(cl ("leaflet_js"), cl ("Xhttps://cdn.jsdelivr.net/npm/leaflet@1/dist/leaflet.js"))] none
        (rewrite_external_assets none
          [(cl ("leaflet_js"), cl ("Xhttps://cdn.jsdelivr.net/npm/leaflet@1/dist/leaflet.js"))] none
          (cl ("<script src=\"https://cdn.jsdelivr.net/npm/leaflet@1/dist/leaflet.js\"></script>")))
      ≠ rewrite_external_assets none
          [(cl ("leaflet_js"), cl ("Xhttps://cdn.jsdelivr.net/npm/leaflet@1/dist/leaflet.js"))] none
          (cl ("<script src=\"https://cdn.jsdelivr.net/npm/leaflet@1/dist/leaflet.js\"></script>")) := by
  decide

/-- C7 (amended): reference-mode rewriting is idempotent whenever the
first pass's output contains no residual match of any CDN pattern — in
particular for the intended tables mapping resources to local file paths,
which neither match any pattern nor recreate one. -/
theorem c7_reference_idempotent (dir : Option (List Char))
    (extra : List (List Char × List Char)) (tiles : Option (List Char))
    (html : List Char)
    (hres : ∀ kp ∈ cdnPatterns,
        findIter kp.2 (rewrite_external_assets dir extra tiles html) = []) :
    rewrite_external_assets dir extra tiles
        (rewrite_external_assets dir extra tiles html)
      = rewrite_external_assets dir extra tiles html := by
  conv_lhs => rw [rewrite_external_assets]
  generalize hout : rewrite_external_assets dir extra tiles html = out at hres ⊢
  clear hout
  have main : ∀ (l : List (List Char × Matcher)),
      (∀ kp ∈ l, findIter kp.2 out = []) →
      l.foldl (refStep (buildRepsRef dir extra tiles)) out = out := by
    intro l
    induction l with
    | nil => intro _; rfl
    | cons kp l2 ih =>
      intro hl
      have hstep : refStep (buildRepsRef dir extra tiles) out kp = out := by
        rw [refStep]
        cases lookupLast (buildRepsRef dir extra tiles) kp.1 with
        | none => rfl
        | some v =>
          by_cases hv : v = []
          · simp [hv]
          · simp only [if_neg hv]
            exact patSub_of_no_match kp.2 v out (hl kp (List.mem_cons_self kp l2))
      rw [List.foldl_cons, hstep]
      exact ih (fun q hq => hl q (List.mem_cons_of_mem kp hq))
  exact main cdnPatterns hres

/-- Witness for C7's amended statement: a path-valued table on a concrete
document; the rewritten output has no residual CDN-pattern match, and the
second pass reproduces it. -/
theorem c7_witness :
    rewrite_external_assets none
        [(cl ("leaflet_js"), cl ("assets/leaflet.js"))] none
        (rewrite_external_assets none
          [(cl ("leaflet_js"), cl ("assets/leaflet.js"))] none
          (cl ("<p><script src=\"https://cdn.jsdelivr.net/npm/leaflet@1/dist/leaflet.js\"></script></p>")))
      = rewrite_external_assets none
          [(cl ("leaflet_js"), cl ("assets/leaflet.js"))] none
          (cl ("<p><script src=\"https://cdn.jsdelivr.net/npm/leaflet@1/dist/leaflet.js\"></script></p>")) :=
  c7_reference_idempotent none
    [(cl ("leaflet_js"), cl ("assets/leaflet.js"))] none
    (cl ("<p><script src=\"https://cdn.jsdelivr.net/npm/leaflet@1/dist/leaflet.js\"></script></p>"))
    (by decide)

/-! ### Inline embedding: reverse-order correctness (C1) and unlocatable
tags (C6).

The key technical facts: `str.find`/`str.rfind` results are stable under
changes to the text strictly beyond the region they inspect, so spans
recorded on the original text remain valid for the matches processed
later (i.e. the earlier ones in document order) after the later matches
have been spliced. -/

/-- `isPrefixOf` only inspects the first `tok.length` characters. -/
theorem isPrefixOf_congr_take (tok : List Char) :
    ∀ (s1 s2 : List Char), s1.take tok.length = s2.take tok.length →
      tok.isPrefixOf s1 = tok.isPrefixOf s2 := by
  induction tok with
  | nil => intro s1 s2 _; cases s1 <;> cases s2 <;> rfl
  | cons c ts ih =>
    intro s1 s2 h
    cases s1 with
    | nil =>
      cases s2 with
      | nil => rfl
      | cons b r2 => simp at h
    | cons a r1 =>
      cases s2 with
      | nil => simp at h
      | cons b r2 =>
        simp only [List.length_cons, List.take_succ_cons, List.cons.injEq] at h
        obtain ⟨rfl, h2⟩ := h
        simp only [List.isPrefixOf_cons₂]
        rw [ih r1 r2 h2]

/-- `rfind` with window end `e` finds nothing at positions `≥ e`. -/
theorem rfindOccAux_none_of_ge (tok : List Char) (htok : 1 ≤ tok.length) (e : Nat) :
    ∀ (s : List Char) (i : Nat), e ≤ i → rfindOccAux tok e s i = none := by
  intro s
  induction s with
  | nil => intro i _; rfl
  | cons c r ih =>
    intro i h
    rw [rfindOccAux, ih (i + 1) (by omega)]
    exact if_neg (by rintro ⟨h1, _⟩; omega)

/-- `rfind` bounded by `e` only depends on the first `e` characters. -/
theorem rfindOccAux_congr (tok : List Char) (htok : 1 ≤ tok.length) (e : Nat) :
    ∀ (s1 s2 : List Char) (i : Nat), s1.take (e - i) = s2.take (e - i) →
      rfindOccAux tok e s1 i = rfindOccAux tok e s2 i := by
  intro s1
  induction s1 with
  | nil =>
    intro s2 i h
    cases s2 with
    | nil => rfl
    | cons b r2 =>
      have he : e ≤ i := by
        by_contra hlt
        push_neg at hlt
        rw [show e - i = (e - i - 1) + 1 from by omega] at h
        simp at h
      rw [rfindOccAux_none_of_ge tok htok e (b :: r2) i he]
      rfl
  | cons a r1 ih =>
    intro s2 i h
    by_cases he : e ≤ i
    · rw [rfindOccAux_none_of_ge tok htok e (a :: r1) i he,
          rfindOccAux_none_of_ge tok htok e s2 i he]
    · push_neg at he
      have hmi : e - i = (e - (i + 1)) + 1 := by omega
      cases s2 with
      | nil =>
        exfalso
        rw [hmi] at h
        simp at h
      | cons b r2 =>
        have h0 := h
        rw [hmi] at h
        simp only [List.take_succ_cons, List.cons.injEq] at h
        obtain ⟨rfl, h2⟩ := h
        rw [rfindOccAux, rfindOccAux, ih r2 (i + 1) h2]
        cases hx : rfindOccAux tok e r2 (i + 1) with
        | some j => rfl
        | none =>
          by_cases hle : i + tok.length ≤ e
          · have h1 : (a :: r1).take tok.length = (a :: r2).take tok.length := by
              calc (a :: r1).take tok.length
                  = ((a :: r1).take (e - i)).take tok.length := by
                    rw [List.take_take, Nat.min_eq_left (by omega)]
                _ = ((a :: r2).take (e - i)).take tok.length := by rw [h0]
                _ = (a :: r2).take tok.length := by
                    rw [List.take_take, Nat.min_eq_left (by omega)]
            have hpre := isPrefixOf_congr_take tok (a :: r1) (a :: r2) h1
            simp only [hpre]
          · rw [if_neg (by rintro ⟨hh, _⟩; exact hle hh),
                if_neg (by rintro ⟨hh, _⟩; exact hle hh)]

/-- A `find` hit is at or after the scan head. -/
theorem findOccAux_le (tok : List Char) (start : Nat) :
    ∀ (s : List Char) (i j : Nat), findOccAux tok start s i = some j → i ≤ j := by
  intro s
  induction s with
  | nil => intro i j h; simp [findOccAux] at h
  | cons a r ih =>
    intro i j h
    rw [findOccAux] at h
    by_cases hc : start ≤ i ∧ tok.isPrefixOf (a :: r) = true
    · rw [if_pos hc] at h
      injection h with h
      omega
    · rw [if_neg hc] at h
      have := ih (i + 1) j h
      omega

/-- A `find` hit whose occurrence ends within the first `m` characters is
preserved by any change to the text from position `m` on: the scan up to
the hit only inspects the first `m` characters. -/
theorem findOccAux_congr (tok : List Char) (htok : 1 ≤ tok.length) (start m : Nat) :
    ∀ (s1 s2 : List Char) (i j : Nat), findOccAux tok start s1 i = some j →
      j + tok.length ≤ m → s1.take (m - i) = s2.take (m - i) →
      findOccAux tok start s2 i = some j := by
  intro s1
  induction s1 with
  | nil => intro s2 i j h _ _; simp [findOccAux] at h
  | cons a r1 ih =>
    intro s2 i j h hjm htake
    rw [findOccAux] at h
    by_cases hc : start ≤ i ∧ tok.isPrefixOf (a :: r1) = true
    · rw [if_pos hc] at h
      injection h with h
      subst h
      have hL : tok.length ≤ m - i := by omega
      have h1 : (a :: r1).take tok.length = s2.take tok.length := by
        calc (a :: r1).take tok.length
            = ((a :: r1).take (m - i)).take tok.length := by
              rw [List.take_take, Nat.min_eq_left hL]
          _ = (s2.take (m - i)).take tok.length := by rw [htake]
          _ = s2.take tok.length := by rw [List.take_take, Nat.min_eq_left hL]
      have hpre : tok.isPrefixOf s2 = true := by
        rw [← isPrefixOf_congr_take tok (a :: r1) s2 h1]
        exact hc.2
      cases s2 with
      | nil =>
        exfalso
        cases tok with
        | nil => simp at htok
        | cons t ts => simp [List.isPrefixOf] at hpre
      | cons b r2 => rw [findOccAux, if_pos ⟨hc.1, hpre⟩]
    · rw [if_neg hc] at h
      have hij : i + 1 ≤ j := findOccAux_le tok start r1 (i + 1) j h
      have hmi : m - i = (m - (i + 1)) + 1 := by omega
      cases s2 with
      | nil =>
        exfalso
        rw [hmi] at htake
        simp at htake
      | cons b r2 =>
        have htake0 := htake
        rw [hmi] at htake
        simp only [List.take_succ_cons, List.cons.injEq] at htake
        obtain ⟨rfl, ht2⟩ := htake
        have hc2 : ¬ (start ≤ i ∧ tok.isPrefixOf (a :: r2) = true) := by
          intro hcc
          apply hc
          refine ⟨hcc.1, ?_⟩
          have hL : tok.length ≤ m - i := by omega
          have h1 : (a :: r1).take tok.length = (a :: r2).take tok.length := by
            calc (a :: r1).take tok.length
                = ((a :: r1).take (m - i)).take tok.length := by
                  rw [List.take_take, Nat.min_eq_left hL]
              _ = ((a :: r2).take (m - i)).take tok.length := by rw [htake0]
              _ = (a :: r2).take tok.length := by
                  rw [List.take_take, Nat.min_eq_left hL]
          rw [isPrefixOf_congr_take tok (a :: r1) (a :: r2) h1]
          exact hcc.2
        rw [findOccAux, if_neg hc2]
        exact ih r2 (i + 1) j h hjm ht2

/-- Lifting of `findOccAux_congr` to `strFindFrom`. -/
theorem strFindFrom_congr (tok : List Char) (htok : 1 ≤ tok.length)
    (start m : Nat) (h1 h2 : List Char) (j : Nat)
    (hf : strFindFrom tok h1 start = some j) (hjm : j + tok.length ≤ m)
    (ht : h1.take m = h2.take m) : strFindFrom tok h2 start = some j :=
  findOccAux_congr tok htok start m h1 h2 0 j hf hjm (by simpa using ht)

/-- Lifting of `rfindOccAux_congr` to `strRfindBefore`. -/
theorem strRfindBefore_congr (tok : List Char) (htok : 1 ≤ tok.length)
    (e : Nat) (h1 h2 : List Char) (ht : h1.take e = h2.take e) :
    strRfindBefore tok h1 e = strRfindBefore tok h2 e :=
  rfindOccAux_congr tok htok e h1 h2 0 (by simpa using ht)

/-- C1: with two matches of the same script pattern (here the Leaflet
core script, in arbitrary differing surrounding markup), the inline
rewriter processes them in reverse document order, and both enclosing
script tags are replaced intact by the inline block: the output is
exactly prefix, inline block, the text strictly between the two tags,
inline block, suffix — the replacement of the later match never corrupts
the span of the earlier one. -/
theorem c1_reverse_order_both_replaced (html inl : List Char)
    (s1 e1 s2 e2 a1 b1 a2 b2 : Nat)
    (hspans : findIter leafletJsM html = [(s1, e1), (s2, e2)])
    (h1o : strRfindBefore scriptOpenTok html s1 = some a1)
    (h1c : strFindFrom scriptCloseTok html e1 = some b1)
    (h2o : strRfindBefore scriptOpenTok html s2 = some a2)
    (h2c : strFindFrom scriptCloseTok html e2 = some b2)
    (ha1 : a1 ≤ s1) (hs1 : s1 ≤ e1) (he1 : e1 ≤ b1)
    (hdisj : b1 + 9 ≤ a2)
    (ha2 : a2 ≤ s2) (hs2 : s2 ≤ e2) (he2 : e2 ≤ b2)
    (hlen : b2 + 9 ≤ html.length) :
    embedJsForPattern leafletJsM inl html
      = html.take a1 ++ inl ++ (html.take a2).drop (b1 + 9)
          ++ inl ++ html.drop (b2 + 9) := by
  have hclose : scriptCloseTok.length = 9 := rfl
  rw [embedJsForPattern, hspans, embedScriptMatches]
  rw [show ([(s1, e1), (s2, e2)] : List (Nat × Nat)).reverse
      = [(s2, e2), (s1, e1)] from rfl]
  simp only [List.foldl_cons, List.foldl_nil]
  have hstep2 : embedScriptStep inl html (s2, e2)
      = html.take a2 ++ inl ++ html.drop (b2 + 9) := by
    simp only [embedScriptStep, h2o, h2c, hclose]
  rw [hstep2]
  have hta2 : (html.take a2).length = a2 := by
    rw [List.length_take]
    omega
  have htake_s1 : (html.take a2 ++ inl ++ html.drop (b2 + 9)).take s1
      = html.take s1 := by
    rw [List.append_assoc,
        List.take_append_of_le_length (by rw [hta2]; omega),
        List.take_take, Nat.min_eq_left (by omega)]
  have htake_a2 : (html.take a2 ++ inl ++ html.drop (b2 + 9)).take a2
      = html.take a2 := by
    rw [List.append_assoc,
        List.take_append_of_le_length (by rw [hta2]),
        List.take_take, Nat.min_self]
  have E1 : strRfindBefore scriptOpenTok
      (html.take a2 ++ inl ++ html.drop (b2 + 9)) s1 = some a1 :=
    (strRfindBefore_congr scriptOpenTok (by decide) s1 _ html htake_s1).trans h1o
  have E2 : strFindFrom scriptCloseTok
      (html.take a2 ++ inl ++ html.drop (b2 + 9)) e1 = some b1 :=
    strFindFrom_congr scriptCloseTok (by decide) e1 a2 html _ b1 h1c
      (by rw [hclose]; exact hdisj) htake_a2.symm
  have hstep1 : embedScriptStep inl (html.take a2 ++ inl ++ html.drop (b2 + 9)) (s1, e1)
      = (html.take a2 ++ inl ++ html.drop (b2 + 9)).take a1 ++ inl
          ++ (html.take a2 ++ inl ++ html.drop (b2 + 9)).drop (b1 + 9) := by
    simp only [embedScriptStep, E1, E2, hclose]
  rw [hstep1]
  have hta1 : (html.take a2 ++ inl ++ html.drop (b2 + 9)).take a1
      = html.take a1 := by
    rw [List.append_assoc,
        List.take_append_of_le_length (by rw [hta2]; omega),
        List.take_take, Nat.min_eq_left (by omega)]
  have hdropb1 : (html.take a2 ++ inl ++ html.drop (b2 + 9)).drop (b1 + 9)
      = (html.take a2).drop (b1 + 9) ++ (inl ++ html.drop (b2 + 9)) := by
    rw [List.append_assoc,
        List.drop_append_of_le_length (by rw [hta2]; omega)]
  rw [hta1, hdropb1]
  simp [List.append_assoc]

/-- Witness for C1: a concrete document with two occurrences of the
Leaflet script URL in differing markup; both script tags come out
replaced intact, preserving the markup between and around them. -/
theorem c1_witness :
    embedJsForPattern leafletJsM
      (mkInlineScript (cl ("var L = 0;")))
      (cl ("<p>A</p><script src=\"https://cdn.jsdelivr.net/npm/leaflet@1.9.3/dist/leaflet.js\"></script><p>B</p><script defer src=\"https://cdn.jsdelivr.net/npm/leaflet@1.9.3/dist/leaflet.min.js\" crossorigin=\"\"></script><p>C</p>"))
      = (cl ("<p>A</p><script src=\"https://cdn.jsdelivr.net/npm/leaflet@1.9.3/dist/leaflet.js\"></script><p>B</p><script defer src=\"https://cdn.jsdelivr.net/npm/leaflet@1.9.3/dist/leaflet.min.js\" crossorigin=\"\"></script><p>C</p>")).take 8
        ++ mkInlineScript (cl ("var L = 0;"))
        ++ ((cl ("<p>A</p><script src=\"https://cdn.jsdelivr.net/npm/leaflet@1.9.3/dist/leaflet.js\"></script><p>B</p><script defer src=\"https://cdn.jsdelivr.net/npm/leaflet@1.9.3/dist/leaflet.min.js\" crossorigin=\"\"></script><p>C</p>")).take 98).drop 90
        ++ mkInlineScript (cl ("var L = 0;"))
        ++ (cl ("<p>A</p><script src=\"https://cdn.jsdelivr.net/npm/leaflet@1.9.3/dist/leaflet.js\"></script><p>B</p><script defer src=\"https://cdn.jsdelivr.net/npm/leaflet@1.9.3/dist/leaflet.min.js\" crossorigin=\"\"></script><p>C</p>")).drop 205 :=
  c1_reverse_order_both_replaced
    (cl ("<p>A</p><script src=\"https://cdn.jsdelivr.net/npm/leaflet@1.9.3/dist/leaflet.js\"></script><p>B</p><script defer src=\"https://cdn.jsdelivr.net/npm/leaflet@1.9.3/dist/leaflet.min.js\" crossorigin=\"\"></script><p>C</p>"))
    (mkInlineScript (cl ("var L = 0;")))
    21 79 117 179 8 81 98 196
    (by decide) (by decide) (by decide) (by decide) (by decide)
    (by decide) (by decide) (by decide) (by decide) (by decide)
    (by decide) (by decide) (by decide)

/-- C6: a match whose enclosing tag cannot be located is skipped, leaving
the text unmodified there, with no failure, while every other match is
still processed.  First part (script class, Leaflet core script): of two
matches, the second has no closing `</script>` after it, so it is left
alone, while the first is still replaced.  Second part (style class,
Leaflet core stylesheet): a match with no `<link` anywhere before it
leaves the document entirely unchanged. -/
theorem c6_unlocatable_tag_skipped :
    (∀ (html inl : List Char) (s1 e1 s2 e2 a1 b1 : Nat),
      findIter leafletJsM html = [(s1, e1), (s2, e2)] →
      strFindFrom scriptCloseTok html e2 = none →
      strRfindBefore scriptOpenTok html s1 = some a1 →
      strFindFrom scriptCloseTok html e1 = some b1 →
      embedJsForPattern leafletJsM inl html
        = html.take a1 ++ inl ++ html.drop (b1 + 9))
    ∧ (∀ (html inl : List Char) (s e : Nat),
      findIter leafletCssM html = [(s, e)] →
      strRfindBefore linkOpenTok html s = none →
      embedCssForPattern leafletCssM inl html = html) := by
  constructor
  · intro html inl s1 e1 s2 e2 a1 b1 hspans h2c h1o h1c
    have hclose : scriptCloseTok.length = 9 := rfl
    rw [embedJsForPattern, hspans, embedScriptMatches]
    rw [show ([(s1, e1), (s2, e2)] : List (Nat × Nat)).reverse
        = [(s2, e2), (s1, e1)] from rfl]
    simp only [List.foldl_cons, List.foldl_nil]
    have hstep2 : embedScriptStep inl html (s2, e2) = html := by
      rw [embedScriptStep]
      cases hro : strRfindBefore scriptOpenTok html (s2, e2).1 with
      | none => rfl
      | some ss => rw [show (s2, e2).2 = e2 from rfl, h2c]
    rw [hstep2]
    simp only [embedScriptStep, h1o, h1c, hclose]
  · intro html inl s e hspans ho
    rw [embedCssForPattern, hspans, embedLinkMatches]
    rw [show ([(s, e)] : List (Nat × Nat)).reverse = [(s, e)] from rfl]
    simp only [List.foldl_cons, List.foldl_nil]
    simp only [embedLinkStep, ho]

/-- Witness for C6: a script document whose second tag is never closed
(the second match is skipped, the first still replaced), and a stylesheet
URL inside a CSS `@import url(...)` with no link tag at all (the match is
skipped and the document is returned unchanged). -/
theorem c6_witness :
    embedJsForPattern leafletJsM (mkInlineScript (cl ("var L = 0;")))
      (cl ("<script src=\"https://cdn.jsdelivr.net/npm/leaflet@1.9.3/dist/leaflet.js\"></script><script src=\"https://cdn.jsdelivr.net/npm/leaflet@1.9.3/dist/leaflet.min.js\">"))
      = (cl ("<script src=\"https://cdn.jsdelivr.net/npm/leaflet@1.9.3/dist/leaflet.js\"></script><script src=\"https://cdn.jsdelivr.net/npm/leaflet@1.9.3/dist/leaflet.min.js\">")).take 0
        ++ mkInlineScript (cl ("var L = 0;"))
        ++ (cl ("<script src=\"https://cdn.jsdelivr.net/npm/leaflet@1.9.3/dist/leaflet.js\"></script><script src=\"https://cdn.jsdelivr.net/npm/leaflet@1.9.3/dist/leaflet.min.js\">")).drop 82
    ∧ embedCssForPattern leafletCssM (mkInlineStyle (cl ("body")))
        (cl ("@import url(https://cdn.jsdelivr.net/npm/leaflet@1.9.3/dist/leaflet.css);"))
      = cl ("@import url(https://cdn.jsdelivr.net/npm/leaflet@1.9.3/dist/leaflet.css);") :=
  ⟨c6_unlocatable_tag_skipped.1
      (cl ("<script src=\"https://cdn.jsdelivr.net/npm/leaflet@1.9.3/dist/leaflet.js\"></script><script src=\"https://cdn.jsdelivr.net/npm/leaflet@1.9.3/dist/leaflet.min.js\">"))
      (mkInlineScript (cl ("var L = 0;")))
      13 71 95 157 0 73
      (by decide) (by decide) (by decide) (by decide),
   c6_unlocatable_tag_skipped.2
      (cl ("@import url(https://cdn.jsdelivr.net/npm/leaflet@1.9.3/dist/leaflet.css);"))
      (mkInlineStyle (cl ("body")))
      12 71
      (by decide) (by decide)⟩
